import Mathlib

/-
Verification of `apply_fraud_rules` (src/main.py) of the FRAUD-DETECTION
repository.

Modelling choices (shallow embedding):
* A DataFrame row is a record; the frame itself is a `List` of rows in row
  order; the DataFrame row label (a `RangeIndex` position, preserved by
  `sort_values`) is the `idx` field of `ITx`.
* Monetary columns are exact rationals (the claims are about the rule logic,
  not about float rounding), timestamps are whole seconds (the source stores
  second-precision datetimes as strings and parses them with
  `pd.to_datetime`); parsing is therefore modelled as the identity and
  `dt.hour` as seconds-of-day divided by 3600.
* `df.sort_values(by=["customer_id", "timestamp_dt"])` sorts on several
  columns, which pandas performs with `numpy.lexsort`, a stable sort; a
  stable sort by the keys (customer_id, timestamp) is modelled as a sort by
  the key triple (customer_id, timestamp, original position).
* The `reason` string column, built by `+=` of `"<text>; "` pieces, is
  modelled as the list of appended texts (`reasons`); the column value is
  recovered by `reasonString` below.
* `while (times[end] - times[start]).total_seconds() / 60 > window_minutes`
  compares an integer number of seconds divided by 60 with 10, which is
  equivalent to the comparison `seconds > 600`.
-/

/- `Rat.mul`, `Rat.inv` and `Rat.div` are irreducible in the library, which
blocks kernel evaluation of concrete rational arithmetic in `decide`; restore
their default transparency. -/
set_option allowUnsafeReducibility true in
attribute [semireducible] Rat.mul Rat.inv Rat.div

namespace FraudDetection

/-- A row of the input DataFrame: the columns written by
`generate_synthetic_transactions` and consumed by `apply_fraud_rules`. -/
structure Transaction where
  txId : Nat
  customerId : Nat
  homeCountry : String
  amount : Rat
  country : String
  ipCountry : String
  channel : String
  merchantCategory : String
  previousBalance : Rat
  newBalance : Rat
  ts : Nat
deriving DecidableEq

instance : Inhabited Transaction :=
  ⟨⟨0, 0, "", 0, "", "", "", "", 0, 0, 0⟩⟩

/-- A transaction row together with its DataFrame row label (the original
position: `pd.read_csv` yields a `RangeIndex`, and `sort_values` keeps the
labels). -/
structure ITx where
  tx : Transaction
  idx : Nat
deriving DecidableEq

instance : Inhabited ITx := ⟨⟨default, 0⟩⟩

/-- A row of the DataFrame returned by `apply_fraud_rules`: the input columns,
the derived columns `timestamp_dt` (`tsDt`) and `hour` (lines 111-112 of
src/main.py), and the result columns. -/
structure ScoredTx where
  txId : Nat
  customerId : Nat
  homeCountry : String
  amount : Rat
  country : String
  ipCountry : String
  channel : String
  merchantCategory : String
  previousBalance : Rat
  newBalance : Rat
  ts : Nat
  tsDt : Nat
  hour : Nat
  isSuspicious : Bool
  reasons : List String
  riskScore : Nat
  riskLabel : String
  idx : Nat
deriving DecidableEq

instance : Inhabited ScoredTx :=
  ⟨⟨0, 0, "", 0, "", "", "", "", 0, 0, 0, 0, 0, false, [], 0, "", 0⟩⟩

/-- Hour of day of a second-precision timestamp (what `dt.hour` returns for
the parsed naive datetimes). -/
def hourOfDay (t : Nat) : Nat := t % 86400 / 3600

/-- Lines 105-112 of src/main.py: make the row of the working copy of the
frame, with `is_suspicious = False`, `reason = ""` (the empty list of
appended texts), `risk_score = 0`, the parsed timestamp column and the hour
column.  `risk_label` does not exist yet; it is created by the final pass. -/
def initRow (it : ITx) : ScoredTx :=
  { txId := it.tx.txId
    customerId := it.tx.customerId
    homeCountry := it.tx.homeCountry
    amount := it.tx.amount
    country := it.tx.country
    ipCountry := it.tx.ipCountry
    channel := it.tx.channel
    merchantCategory := it.tx.merchantCategory
    previousBalance := it.tx.previousBalance
    newBalance := it.tx.newBalance
    ts := it.tx.ts
    tsDt := it.tx.ts
    hour := hourOfDay it.tx.ts
    isSuspicious := false
    reasons := []
    riskScore := 0
    riskLabel := ""
    idx := it.idx }

/-- Line 121: `risky_countries = ["NG", "RU", "CN"]`. -/
def risky_countries : List String := ["NG", "RU", "CN"]

/-- Line 115: `df["amount"] > 8000`. -/
def high_amount_mask (o : ScoredTx) : Prop := 8000 < o.amount

/-- Line 122: `df["country"].isin(risky_countries)`. -/
def risky_country_mask (o : ScoredTx) : Prop := o.country ∈ risky_countries

/-- Line 128: `(df["ip_country"] != df["home_country"]) &
(df["country"] != df["home_country"])`. -/
def mismatch_country_mask (o : ScoredTx) : Prop :=
  o.ipCountry ≠ o.homeCountry ∧ o.country ≠ o.homeCountry

/-- Line 134: `df["hour"].between(0, 5) & (df["amount"] > 500)`; `between` is
inclusive on both ends and `0 ≤ hour` always holds for a natural number. -/
def night_mask (o : ScoredTx) : Prop := o.hour ≤ 5 ∧ 500 < o.amount

/-- Line 164: `(df["previous_balance"] > 0) &
(df["new_balance"] < df["previous_balance"] * 0.05) & (df["amount"] > 1000)`. -/
def almost_zero_mask (o : ScoredTx) : Prop :=
  0 < o.previousBalance ∧ o.newBalance < o.previousBalance * (5 / 100) ∧
    1000 < o.amount

instance (o : ScoredTx) : Decidable (high_amount_mask o) :=
  inferInstanceAs (Decidable (8000 < o.amount))

instance (o : ScoredTx) : Decidable (risky_country_mask o) :=
  inferInstanceAs (Decidable (o.country ∈ risky_countries))

instance (o : ScoredTx) : Decidable (mismatch_country_mask o) :=
  inferInstanceAs (Decidable (_ ∧ _))

instance (o : ScoredTx) : Decidable (night_mask o) :=
  inferInstanceAs (Decidable (_ ∧ _))

instance (o : ScoredTx) : Decidable (almost_zero_mask o) :=
  inferInstanceAs (Decidable (_ ∧ _))

/-- The three `df.loc[mask, ...]` statements of one rule block: set
`is_suspicious` to `True`, append the reason text, add the weight. -/
def mark (text : String) (w : Nat) (o : ScoredTx) : ScoredTx :=
  { o with isSuspicious := true, reasons := o.reasons ++ [text],
           riskScore := o.riskScore + w }

/-- Lines 115-118 (Regla 1: monto muy alto). -/
def rule1Pass (o : ScoredTx) : ScoredTx :=
  if high_amount_mask o then mark "Monto extremadamente alto" 40 o else o

/-- Lines 121-125 (Regla 2: país de riesgo). -/
def rule2Pass (o : ScoredTx) : ScoredTx :=
  if risky_country_mask o then mark "País de alto riesgo" 25 o else o

/-- Lines 128-131 (Regla 3: IP en país distinto). -/
def rule3Pass (o : ScoredTx) : ScoredTx :=
  if mismatch_country_mask o then mark "IP y tarjeta en países distintos" 20 o
  else o

/-- Lines 134-137 (Regla 4: transacciones nocturnas). -/
def rule4Pass (o : ScoredTx) : ScoredTx :=
  if night_mask o then mark "Actividad nocturna inusual" 15 o else o

/-- Lines 159-161: the rows collected in `suspicious_idx` get the frequency
reason and weight 30; the assignment is by row label, so rows collected more
than once are marked once. -/
def freqPass (flagged : Bool) (o : ScoredTx) : ScoredTx :=
  if flagged then mark "Alta frecuencia en 10min" 30 o else o

/-- Lines 164-167 (Regla 6: saldo casi en cero).  Note that in the source
this rule runs AFTER the frequency rule. -/
def rule6Pass (o : ScoredTx) : ScoredTx :=
  if almost_zero_mask o then mark "Vaciado de cuenta" 20 o else o

/-- Line 170: `df["risk_score"].clip(0, 100)`; the lower clip is vacuous for
a sum of non-negative weights. -/
def clipPass (o : ScoredTx) : ScoredTx :=
  { o with riskScore := min o.riskScore 100 }

/-- Lines 173-181: `label_risk`. -/
def label_risk (score : Nat) : String :=
  if score ≥ 70 then "HIGH"
  else if score ≥ 40 then "MEDIUM"
  else if score > 0 then "LOW"
  else "NONE"

/-- Line 183: `df["risk_label"] = df["risk_score"].apply(label_risk)`. -/
def labelPass (o : ScoredTx) : ScoredTx :=
  { o with riskLabel := label_risk o.riskScore }

/-- The effect of all rule passes on one row, given whether the sliding-window
frequency rule flagged the row.  The pass order is the statement order of the
source: rules 1-4, the frequency rule (lines 139-161), rule 6 (lines
163-167), clip, label. -/
def scoreRow (flagged : Bool) (it : ITx) : ScoredTx :=
  labelPass (clipPass (rule6Pass (freqPass flagged
    (rule4Pass (rule3Pass (rule2Pass (rule1Pass (initRow it))))))))

/-- The value of the `reason` string column built by the `+=` statements. -/
def reasonString (o : ScoredTx) : String :=
  String.join (o.reasons.map (fun r => r ++ "; "))

/-- The key order used by line 140,
`df.sort_values(by=["customer_id", "timestamp_dt"])`: pandas sorts several
columns with the stable `numpy.lexsort`, which is the same as ordering by
(customer_id, timestamp, original position). -/
def lexLe (a b : ITx) : Prop :=
  a.tx.customerId < b.tx.customerId ∨
    (a.tx.customerId = b.tx.customerId ∧
      (a.tx.ts < b.tx.ts ∨ (a.tx.ts = b.tx.ts ∧ a.idx ≤ b.idx)))

instance : DecidableRel lexLe := fun _ _ =>
  inferInstanceAs (Decidable (_ ∨ _))

instance : IsTotal ITx lexLe := ⟨by intro a b; unfold lexLe; omega⟩

instance : IsTrans ITx lexLe := ⟨by intro a b c; unfold lexLe; omega⟩

/-- Attach DataFrame row labels 'i', 'i+1', ... to a list of rows. -/
def indexFrom : Nat → List Transaction → List ITx
  | _, [] => []
  | i, t :: l => ⟨t, i⟩ :: indexFrom (i + 1) l

/-- The input frame with its `RangeIndex` labels. -/
def indexTxs (txs : List Transaction) : List ITx := indexFrom 0 txs

/-- Line 140: the frame sorted by (customer_id, timestamp_dt), stably. -/
def sortedAll (txs : List Transaction) : List ITx :=
  List.insertionSort lexLe (indexTxs txs)

/-- Lines 152-153: the eviction loop
`while (times[end] - times[start]).total_seconds() / 60 > window_minutes:
start += 1`, with `window_minutes = 10`.  `fuel` is an upper bound on the
number of iterations; the callers pass `endIdx - start`, which is exact
because the loop body cannot move `start` past `endIdx`
(`times[endIdx] - times[endIdx] = 0 > 600` is false). -/
def evict (times : List Nat) (tEnd : Nat) : Nat → Nat → Nat
  | start, 0 => start
  | start, fuel + 1 =>
    if (tEnd : Int) - (times.getD start 0 : Int) > 600 then
      evict times tEnd (start + 1) fuel
    else start

/-- Lines 150-157: the `for end in range(len(times))` loop of the
sliding-window scan; `fuel` counts the remaining loop iterations
(`times.length - endIdx`).  Returns the positions (within the customer's
sorted group) appended to `suspicious_idx`, with
`window_minutes = 10` and `max_tx_in_window = 6`. -/
def scanGo (times : List Nat) : Nat → Nat → Nat → List Nat
  | 0, _, _ => []
  | fuel + 1, endIdx, start =>
    let s := evict times (times.getD endIdx 0) start (endIdx - start)
    (if 6 ≤ endIdx + 1 - s then List.range' s (endIdx + 1 - s) else []) ++
      scanGo times fuel (endIdx + 1) s

/-- The positions flagged by the two-pointer scan over one customer's sorted
timestamp list (`start = 0` before the loop, line 150). -/
def freqPositions (times : List Nat) : List Nat :=
  scanGo times times.length 0 0

/-- The stop condition of the eviction loop: the window from position `s` to
position `e` of `times` spans at most 10 minutes. -/
def inWin (times : List Nat) (e s : Nat) : Prop :=
  (times.getD e 0 : Int) - (times.getD s 0 : Int) ≤ 600

instance (times : List Nat) (e s : Nat) : Decidable (inWin times e s) :=
  inferInstanceAs (Decidable (_ ≤ _))

/-- The position the eviction loop settles on for window end `e`: the least
`s` with `inWin times e s` (such an `s` exists because `s = e` works). -/
def mStart (times : List Nat) (e : Nat) : Nat :=
  Nat.find (⟨e, by simp [inWin]⟩ : ∃ s, inWin times e s)

/-- Whether some qualifying window (six or more positions spanning at most
10 minutes) of the sorted time list `times` covers the time value `τ`. -/
def coveredTime (times : List Nat) (τ : Nat) : Prop :=
  ∃ s e, e < times.length ∧ 6 ≤ e + 1 - s ∧ inWin times e s ∧
    times.getD s 0 ≤ τ ∧ τ ≤ times.getD e 0

/-- One group of `df.groupby("customer_id")` (line 146): the rows of the
sorted frame whose customer is `c`, in frame order. -/
def customerGroup (txs : List Transaction) (c : Nat) : List ITx :=
  (sortedAll txs).filter (fun it => it.tx.customerId == c)

/-- Line 147: `times = group["timestamp_dt"].tolist()`. -/
def groupTimes (txs : List Transaction) (c : Nat) : List Nat :=
  (customerGroup txs c).map (fun it => it.tx.ts)

/-- The customer keys the `groupby` loop runs over. -/
def customers (txs : List Transaction) : List Nat :=
  ((sortedAll txs).map (fun it => it.tx.customerId)).dedup

/-- Lines 144-157: the `suspicious_idx` list; for each customer group the
flagged positions are turned into frame row labels through
`indices = group.index.tolist()` and `indices[start:end + 1]`. -/
def suspicious_idx (txs : List Transaction) : List Nat :=
  (customers txs).flatMap (fun c =>
    (freqPositions (groupTimes txs c)).map
      (fun p => ((customerGroup txs c).getD p default).idx))

/-- Whether the frequency rule flags the row with label `i`
(`df.loc[suspicious_idx, ...]`, lines 159-161). -/
def freqFlag (txs : List Transaction) (i : Nat) : Bool :=
  decide (i ∈ suspicious_idx txs)

/-- `apply_fraud_rules` (lines 100-185): the returned frame, in the row order
produced by line 140 (the frame is never re-sorted afterwards). -/
def apply_fraud_rules (txs : List Transaction) : List ScoredTx :=
  (sortedAll txs).map (fun it => scoreRow (freqFlag txs it.idx) it)

/-- The weights of the rules that triggered for a row, in the statement order
of the source, summed (specification-side definition used by the clip
claim). -/
def triggeredWeights (flagged : Bool) (o : ScoredTx) : Nat :=
  (if high_amount_mask o then 40 else 0) +
  (if risky_country_mask o then 25 else 0) +
  (if mismatch_country_mask o then 20 else 0) +
  (if night_mask o then 15 else 0) +
  (if flagged then 30 else 0) +
  (if almost_zero_mask o then 20 else 0)

/-- The reason texts of the rules that triggered for a row, in the statement
order of the source (specification-side definition). -/
def reasonList (flagged : Bool) (o : ScoredTx) : List String :=
  (if high_amount_mask o then ["Monto extremadamente alto"] else []) ++
  (if risky_country_mask o then ["País de alto riesgo"] else []) ++
  (if mismatch_country_mask o then ["IP y tarjeta en países distintos"] else []) ++
  (if night_mask o then ["Actividad nocturna inusual"] else []) ++
  (if flagged then ["Alta frecuencia en 10min"] else []) ++
  (if almost_zero_mask o then ["Vaciado de cuenta"] else [])

/-- Whether some rule triggered for a row (specification-side definition). -/
def anyRule (flagged : Bool) (o : ScoredTx) : Prop :=
  high_amount_mask o ∨ risky_country_mask o ∨ mismatch_country_mask o ∨
    night_mask o ∨ flagged = true ∨ almost_zero_mask o

instance (flagged : Bool) (o : ScoredTx) : Decidable (anyRule flagged o) :=
  inferInstanceAs (Decidable (_ ∨ _))

/-- The per-transaction result fields of a scored row: suspicion flag,
reasons, risk score. -/
def resultOf (o : ScoredTx) : Bool × List String × Nat :=
  (o.isSuspicious, o.reasons, o.riskScore)

/-- Row lookup by the `tx_id` column. -/
def findByTxId (outs : List ScoredTx) (id : Nat) : Option ScoredTx :=
  outs.find? (fun o => o.txId == id)

/-- A Python object that a DataFrame variable can reference: the caller's raw
frame or a scored frame. -/
inductive DfObj where
  | raw : List Transaction → DfObj
  | scored : List ScoredTx → DfObj
deriving DecidableEq

/-- The net effect of lines 106-185 on the working frame object. -/
def scoreObj : DfObj → DfObj
  | .raw l => .scored (apply_fraud_rules l)
  | .scored l => .scored l

/-- Heap model of the body of `apply_fraud_rules`: the heap is the list of
live frame objects, `ref` the position of the caller's frame.  Line 105
(`df = df.copy()`) allocates a fresh object holding a copy of the caller's
value and rebinds the local name `df` to it; every later statement of the
body (lines 106-185) mutates, or rebinds `df` to frames derived from, that
fresh object only, never the caller's object.  Returns the heap after the
call and the position of the returned frame. -/
def apply_fraud_rules_prog (heap : List DfObj) (ref : Nat) :
    List DfObj × Nat :=
  let v := heap.getD ref (.raw [])
  let work := heap.length
  let heap1 := heap ++ [v]
  let heap2 := heap1.set work (scoreObj v)
  (heap2, work)

/-- A transaction that triggers no per-record rule on its own: small amount,
domestic countries, midday, healthy balances. -/
def quietTx (c t k : Nat) : Transaction :=
  { txId := k + 1, customerId := c, homeCountry := "PY", amount := 100,
    country := "PY", ipCountry := "PY", channel := "APP",
    merchantCategory := "SUPERMERCADO", previousBalance := 1000,
    newBalance := 900, ts := t + 120 * k }

/-- Six otherwise-quiet transactions of customer `c`, spaced exactly two
minutes apart from base time `t` (total span exactly 10 minutes). -/
def evenSixTxs (c t : Nat) : List Transaction :=
  [quietTx c t 0, quietTx c t 1, quietTx c t 2, quietTx c t 3,
   quietTx c t 4, quietTx c t 5]

/-- Five otherwise-quiet transactions of customer 1, spaced two minutes
apart (for the fewer-than-six edge case). -/
def fiveTxsInput : List Transaction :=
  [quietTx 1 43200 0, quietTx 1 43200 1, quietTx 1 43200 2,
   quietTx 1 43200 3, quietTx 1 43200 4]

/-- A transaction triggering exactly the high-amount and risky-country
rules: amount 9000, country NG = home = IP country, midday, balances that
fail the account-drain test. -/
def c3tx : Transaction :=
  { txId := 1, customerId := 1, homeCountry := "NG", amount := 9000,
    country := "NG", ipCountry := "NG", channel := "APP",
    merchantCategory := "LUJOS", previousBalance := 20000,
    newBalance := 11000, ts := 43200 }

/-- A one-transaction batch for the two-rule union case. -/
def c3Input : List Transaction := [c3tx]

/-- A transaction of a six-element midday burst that also drains its
account: amount 2000, previous balance 10000, new balance 0. -/
def drainTx (k : Nat) : Transaction :=
  { txId := k + 1, customerId := 7, homeCountry := "PY", amount := 2000,
    country := "PY", ipCountry := "PY", channel := "APP",
    merchantCategory := "LUJOS", previousBalance := 10000, newBalance := 0,
    ts := 43200 + 120 * k }

/-- Six transactions that all trigger both the frequency rule and the
account-drain rule. -/
def c4Input : List Transaction :=
  [drainTx 0, drainTx 1, drainTx 2, drainTx 3, drainTx 4, drainTx 5]

/-- Two quiet transactions whose customer ids are in decreasing order, so
the returned frame is not in input order. -/
def c10Input : List Transaction :=
  [{ quietTx 9 43200 0 with txId := 1 }, { quietTx 3 43200 0 with txId := 2 }]

/-- The same two transactions in the opposite input order. -/
def c7Input2 : List Transaction :=
  [{ quietTx 3 43200 0 with txId := 2 }, { quietTx 9 43200 0 with txId := 1 }]

/-! ### The effect of the rule passes on one row -/

@[simp] theorem high_amount_mask_mark (s : String) (w : Nat) (o : ScoredTx) :
    high_amount_mask (mark s w o) ↔ high_amount_mask o := Iff.rfl

@[simp] theorem risky_country_mask_mark (s : String) (w : Nat) (o : ScoredTx) :
    risky_country_mask (mark s w o) ↔ risky_country_mask o := Iff.rfl

@[simp] theorem mismatch_country_mask_mark (s : String) (w : Nat)
    (o : ScoredTx) :
    mismatch_country_mask (mark s w o) ↔ mismatch_country_mask o := Iff.rfl

@[simp] theorem night_mask_mark (s : String) (w : Nat) (o : ScoredTx) :
    night_mask (mark s w o) ↔ night_mask o := Iff.rfl

@[simp] theorem almost_zero_mask_mark (s : String) (w : Nat) (o : ScoredTx) :
    almost_zero_mask (mark s w o) ↔ almost_zero_mask o := Iff.rfl

@[simp] theorem initRow_txId (it : ITx) : (initRow it).txId = it.tx.txId := rfl

@[simp] theorem initRow_customerId (it : ITx) :
    (initRow it).customerId = it.tx.customerId := rfl

@[simp] theorem initRow_homeCountry (it : ITx) :
    (initRow it).homeCountry = it.tx.homeCountry := rfl

@[simp] theorem initRow_amount (it : ITx) :
    (initRow it).amount = it.tx.amount := rfl

@[simp] theorem initRow_country (it : ITx) :
    (initRow it).country = it.tx.country := rfl

@[simp] theorem initRow_ipCountry (it : ITx) :
    (initRow it).ipCountry = it.tx.ipCountry := rfl

@[simp] theorem initRow_previousBalance (it : ITx) :
    (initRow it).previousBalance = it.tx.previousBalance := rfl

@[simp] theorem initRow_newBalance (it : ITx) :
    (initRow it).newBalance = it.tx.newBalance := rfl

@[simp] theorem initRow_ts (it : ITx) : (initRow it).ts = it.tx.ts := rfl

@[simp] theorem initRow_tsDt (it : ITx) : (initRow it).tsDt = it.tx.ts := rfl

@[simp] theorem initRow_hour (it : ITx) :
    (initRow it).hour = hourOfDay it.tx.ts := rfl

@[simp] theorem initRow_idx (it : ITx) : (initRow it).idx = it.idx := rfl

@[simp] theorem initRow_isSuspicious (it : ITx) :
    (initRow it).isSuspicious = false := rfl

@[simp] theorem initRow_reasons (it : ITx) : (initRow it).reasons = [] := rfl

@[simp] theorem initRow_riskScore (it : ITx) : (initRow it).riskScore = 0 := rfl

/-- Closed form of the pass chain on one row: the passes accumulate exactly
the triggered reason texts (in pass order) and the sum of the triggered
weights, which is then clipped and labelled. -/
theorem scoreRow_eq (f : Bool) (it : ITx) :
    scoreRow f it =
      { initRow it with
        isSuspicious := decide (anyRule f (initRow it))
        reasons := reasonList f (initRow it)
        riskScore := min (triggeredWeights f (initRow it)) 100
        riskLabel := label_risk (min (triggeredWeights f (initRow it)) 100) } := by
  by_cases h1 : high_amount_mask (initRow it) <;>
    by_cases h2 : risky_country_mask (initRow it) <;>
    by_cases h3 : mismatch_country_mask (initRow it) <;>
    by_cases h4 : night_mask (initRow it) <;>
    by_cases h6 : almost_zero_mask (initRow it) <;>
    cases f <;>
    simp only [scoreRow, rule1Pass, rule2Pass, rule3Pass, rule4Pass, freqPass,
      rule6Pass, clipPass, labelPass, high_amount_mask_mark,
      risky_country_mask_mark, mismatch_country_mask_mark, night_mask_mark,
      almost_zero_mask_mark, h1, h2, h3, h4, h6, if_true, if_false,
      Bool.false_eq_true, ite_true, ite_false, if_neg, if_pos,
      not_false_iff] <;>
    simp [mark, anyRule, reasonList, triggeredWeights, h1, h2, h3, h4, h6]

@[simp] theorem scoreRow_txId (f : Bool) (it : ITx) :
    (scoreRow f it).txId = it.tx.txId := by rw [scoreRow_eq]; rfl

@[simp] theorem scoreRow_customerId (f : Bool) (it : ITx) :
    (scoreRow f it).customerId = it.tx.customerId := by rw [scoreRow_eq]; rfl

@[simp] theorem scoreRow_homeCountry (f : Bool) (it : ITx) :
    (scoreRow f it).homeCountry = it.tx.homeCountry := by rw [scoreRow_eq]; rfl

@[simp] theorem scoreRow_amount (f : Bool) (it : ITx) :
    (scoreRow f it).amount = it.tx.amount := by rw [scoreRow_eq]; rfl

@[simp] theorem scoreRow_country (f : Bool) (it : ITx) :
    (scoreRow f it).country = it.tx.country := by rw [scoreRow_eq]; rfl

@[simp] theorem scoreRow_ipCountry (f : Bool) (it : ITx) :
    (scoreRow f it).ipCountry = it.tx.ipCountry := by rw [scoreRow_eq]; rfl

@[simp] theorem scoreRow_previousBalance (f : Bool) (it : ITx) :
    (scoreRow f it).previousBalance = it.tx.previousBalance := by
  rw [scoreRow_eq]; rfl

@[simp] theorem scoreRow_newBalance (f : Bool) (it : ITx) :
    (scoreRow f it).newBalance = it.tx.newBalance := by rw [scoreRow_eq]; rfl

@[simp] theorem scoreRow_ts (f : Bool) (it : ITx) :
    (scoreRow f it).ts = it.tx.ts := by rw [scoreRow_eq]; rfl

@[simp] theorem scoreRow_tsDt (f : Bool) (it : ITx) :
    (scoreRow f it).tsDt = it.tx.ts := by rw [scoreRow_eq]; rfl

@[simp] theorem scoreRow_hour (f : Bool) (it : ITx) :
    (scoreRow f it).hour = hourOfDay it.tx.ts := by rw [scoreRow_eq]; rfl

@[simp] theorem scoreRow_idx (f : Bool) (it : ITx) :
    (scoreRow f it).idx = it.idx := by rw [scoreRow_eq]; rfl

theorem scoreRow_isSuspicious (f : Bool) (it : ITx) :
    (scoreRow f it).isSuspicious = decide (anyRule f (initRow it)) := by
  rw [scoreRow_eq]

theorem scoreRow_reasons (f : Bool) (it : ITx) :
    (scoreRow f it).reasons = reasonList f (initRow it) := by
  rw [scoreRow_eq]

theorem scoreRow_riskScore (f : Bool) (it : ITx) :
    (scoreRow f it).riskScore = min (triggeredWeights f (initRow it)) 100 := by
  rw [scoreRow_eq]

theorem scoreRow_riskLabel (f : Bool) (it : ITx) :
    (scoreRow f it).riskLabel =
      label_risk (min (triggeredWeights f (initRow it)) 100) := by
  rw [scoreRow_eq]

@[simp] theorem high_amount_mask_scoreRow (f : Bool) (it : ITx) :
    high_amount_mask (scoreRow f it) ↔ high_amount_mask (initRow it) := by
  rw [scoreRow_eq]; exact Iff.rfl

@[simp] theorem risky_country_mask_scoreRow (f : Bool) (it : ITx) :
    risky_country_mask (scoreRow f it) ↔ risky_country_mask (initRow it) := by
  rw [scoreRow_eq]; exact Iff.rfl

@[simp] theorem mismatch_country_mask_scoreRow (f : Bool) (it : ITx) :
    mismatch_country_mask (scoreRow f it) ↔
      mismatch_country_mask (initRow it) := by
  rw [scoreRow_eq]; exact Iff.rfl

@[simp] theorem night_mask_scoreRow (f : Bool) (it : ITx) :
    night_mask (scoreRow f it) ↔ night_mask (initRow it) := by
  rw [scoreRow_eq]; exact Iff.rfl

@[simp] theorem almost_zero_mask_scoreRow (f : Bool) (it : ITx) :
    almost_zero_mask (scoreRow f it) ↔ almost_zero_mask (initRow it) := by
  rw [scoreRow_eq]; exact Iff.rfl

/-! ### The sort of line 140 -/

theorem sorted_sortedAll (txs : List Transaction) :
    List.Sorted lexLe (sortedAll txs) :=
  List.sorted_insertionSort lexLe (indexTxs txs)

theorem perm_sortedAll (txs : List Transaction) :
    (sortedAll txs).Perm (indexTxs txs) :=
  List.perm_insertionSort lexLe (indexTxs txs)

theorem indexFrom_map_idx (i : Nat) (l : List Transaction) :
    (indexFrom i l).map ITx.idx = List.range' i l.length := by
  induction l generalizing i with
  | nil => rfl
  | cons t l ih => simp [indexFrom, List.range'_succ, ih]

theorem indexFrom_map_tx (i : Nat) (l : List Transaction) :
    (indexFrom i l).map ITx.tx = l := by
  induction l generalizing i with
  | nil => rfl
  | cons t l ih => simp [indexFrom, ih]

theorem nodup_idx_sortedAll (txs : List Transaction) :
    ((sortedAll txs).map ITx.idx).Nodup := by
  have h : ((indexTxs txs).map ITx.idx).Nodup := by
    rw [indexTxs, indexFrom_map_idx]
    exact List.nodup_range' 0 txs.length
  exact (((perm_sortedAll txs).map ITx.idx).symm.nodup) h

theorem map_tx_sortedAll_perm (txs : List Transaction) :
    ((sortedAll txs).map ITx.tx).Perm txs := by
  have h := (perm_sortedAll txs).map ITx.tx
  rwa [indexTxs, indexFrom_map_tx] at h

theorem idx_inj {txs : List Transaction} {a b : ITx}
    (ha : a ∈ sortedAll txs) (hb : b ∈ sortedAll txs) (h : a.idx = b.idx) :
    a = b :=
  List.inj_on_of_nodup_map (nodup_idx_sortedAll txs) ha hb h

/-! ### Characterisation of the two-pointer window scan -/

theorem inWin_self (times : List Nat) (e : Nat) : inWin times e e := by
  simp [inWin]

theorem inWin_mStart (times : List Nat) (e : Nat) :
    inWin times e (mStart times e) := Nat.find_spec _

theorem mStart_le (times : List Nat) (e : Nat) : mStart times e ≤ e :=
  Nat.find_min' _ (inWin_self times e)

theorem mStart_min {times : List Nat} {e s : Nat} (h : inWin times e s) :
    mStart times e ≤ s := Nat.find_min' _ h

theorem getD_mono_of_sorted {times : List Nat}
    (h : List.Sorted (· ≤ ·) times) {i j : Nat} (hij : i ≤ j)
    (hj : j < times.length) : times.getD i 0 ≤ times.getD j 0 := by
  rcases Nat.eq_or_lt_of_le hij with rfl | hlt
  · exact le_refl _
  · rw [List.getD_eq_getElem _ _ (lt_trans hlt hj), List.getD_eq_getElem _ _ hj]
    exact List.pairwise_iff_getElem.mp h i j (lt_trans hlt hj) hj hlt

theorem mStart_mono {times : List Nat} (h : List.Sorted (· ≤ ·) times)
    {e : Nat} (he : e + 1 < times.length) :
    mStart times e ≤ mStart times (e + 1) := by
  apply mStart_min
  have h1 := inWin_mStart times (e + 1)
  have h2 : times.getD e 0 ≤ times.getD (e + 1) 0 :=
    getD_mono_of_sorted h (Nat.le_succ e) he
  unfold inWin at h1 ⊢
  omega

theorem evict_eq {times : List Nat} {e : Nat} :
    ∀ fuel start, start ≤ mStart times e → mStart times e ≤ start + fuel →
      evict times (times.getD e 0) start fuel = mStart times e := by
  intro fuel
  induction fuel with
  | zero =>
    intro start h1 h2
    simp only [evict]
    omega
  | succ fuel ih =>
    intro start h1 h2
    rw [evict]
    by_cases hc : (times.getD e 0 : Int) - (times.getD start 0 : Int) > 600
    · rw [if_pos hc]
      have hm := inWin_mStart times e
      have hne : start ≠ mStart times e := by
        intro hEq
        rw [hEq] at hc
        unfold inWin at hm
        omega
      exact ih (start + 1) (by omega) (by omega)
    · rw [if_neg hc]
      have hle : mStart times e ≤ start := mStart_min (by unfold inWin; omega)
      omega

theorem mem_ite_list {α : Type} {c : Prop} [Decidable c] {l : List α}
    {p : α} : (p ∈ if c then l else []) ↔ c ∧ p ∈ l := by
  split <;> simp_all

theorem scanGo_mem {times : List Nat} (hs : List.Sorted (· ≤ ·) times) :
    ∀ fuel e start, e + fuel = times.length →
      (e < times.length → start ≤ mStart times e) →
      ∀ p, (p ∈ scanGo times fuel e start ↔
        ∃ e2, e ≤ e2 ∧ e2 < times.length ∧ 6 ≤ e2 + 1 - mStart times e2 ∧
          mStart times e2 ≤ p ∧ p ≤ e2) := by
  intro fuel
  induction fuel with
  | zero =>
    intro e start he _ p
    simp only [scanGo, List.not_mem_nil, false_iff, not_exists]
    intro e2 h
    omega
  | succ fuel ih =>
    intro e start he hstart p
    have heLen : e < times.length := by omega
    have hse : start ≤ mStart times e := hstart heLen
    have hme : mStart times e ≤ e := mStart_le times e
    have hev : evict times (times.getD e 0) start (e - start) =
        mStart times e := evict_eq (e - start) start hse (by omega)
    rw [scanGo]
    simp only [hev, List.mem_append, mem_ite_list]
    rw [ih (e + 1) (mStart times e) (by omega)
      (fun hlt => mStart_mono hs hlt) p]
    constructor
    · rintro (⟨h6, hin⟩ | ⟨e2, h1, h2, h3, h4, h5⟩)
      · rcases List.mem_range'.mp hin with ⟨i, hilt, hieq⟩
        exact ⟨e, le_refl e, heLen, h6, by omega, by omega⟩
      · exact ⟨e2, by omega, h2, h3, h4, h5⟩
    · rintro ⟨e2, h1, h2, h3, h4, h5⟩
      rcases Nat.eq_or_lt_of_le h1 with rfl | hlt
      · refine Or.inl ⟨h3, ?_⟩
        rw [List.mem_range']
        exact ⟨p - mStart times e, by omega, by omega⟩
      · exact Or.inr ⟨e2, by omega, h2, h3, h4, h5⟩

theorem freqPositions_mem {times : List Nat}
    (hs : List.Sorted (· ≤ ·) times) (p : Nat) :
    p ∈ freqPositions times ↔
      ∃ e2, e2 < times.length ∧ 6 ≤ e2 + 1 - mStart times e2 ∧
        mStart times e2 ≤ p ∧ p ≤ e2 := by
  rw [freqPositions,
    scanGo_mem hs times.length 0 0 (by omega) (fun _ => Nat.zero_le _) p]
  constructor
  · rintro ⟨e2, _, h⟩
    exact ⟨e2, h⟩
  · rintro ⟨e2, h⟩
    exact ⟨e2, Nat.zero_le e2, h⟩

theorem freqPositions_lt_length {times : List Nat}
    (hs : List.Sorted (· ≤ ·) times) {p : Nat}
    (h : p ∈ freqPositions times) : p < times.length := by
  rcases (freqPositions_mem hs p).mp h with ⟨e2, h1, _, _, h4⟩
  omega

theorem freqPositions_iff_window {times : List Nat}
    (hs : List.Sorted (· ≤ ·) times) (p : Nat) :
    p ∈ freqPositions times ↔
      ∃ s e2, e2 < times.length ∧ s ≤ p ∧ p ≤ e2 ∧ 6 ≤ e2 + 1 - s ∧
        inWin times e2 s := by
  rw [freqPositions_mem hs]
  constructor
  · rintro ⟨e2, h1, h2, h3, h4⟩
    exact ⟨mStart times e2, e2, h1, h3, h4, h2, inWin_mStart times e2⟩
  · rintro ⟨s, e2, h1, h2, h3, h4, h5⟩
    have hm : mStart times e2 ≤ s := mStart_min h5
    exact ⟨e2, h1, by omega, by omega, h3⟩

theorem freqPositions_iff_time {times : List Nat}
    (hs : List.Sorted (· ≤ ·) times) {p : Nat} (hp : p < times.length) :
    p ∈ freqPositions times ↔ coveredTime times (times.getD p 0) := by
  rw [freqPositions_iff_window hs, coveredTime]
  constructor
  · rintro ⟨s, e2, h1, h2, h3, h4, h5⟩
    exact ⟨s, e2, h1, h4, h5, getD_mono_of_sorted hs h2 hp,
      getD_mono_of_sorted hs h3 h1⟩
  · rintro ⟨s, e2, h1, h2, h3, h4, h5⟩
    have hse : s ≤ e2 := by omega
    rcases Nat.lt_or_ge p s with hps | hps
    · have h6 : times.getD p 0 ≤ times.getD s 0 :=
        getD_mono_of_sorted hs (le_of_lt hps) (by omega)
      have heq : times.getD s 0 = times.getD p 0 := by omega
      refine ⟨p, e2, h1, le_refl p, by omega, by omega, ?_⟩
      unfold inWin at h3 ⊢
      omega
    · rcases le_or_lt p e2 with hpe | hpe
      · exact ⟨s, e2, h1, hps, hpe, h2, h3⟩
      · have h6 : times.getD e2 0 ≤ times.getD p 0 :=
          getD_mono_of_sorted hs (le_of_lt hpe) hp
        have heq : times.getD e2 0 = times.getD p 0 := by omega
        refine ⟨s, p, hp, hps, le_refl p, by omega, ?_⟩
        unfold inWin at h3 ⊢
        omega

/-! ### Customer groups -/

theorem mem_customerGroup_cust {txs : List Transaction} {c : Nat} {it : ITx}
    (h : it ∈ customerGroup txs c) : it.tx.customerId = c := by
  rw [customerGroup, List.mem_filter] at h
  simpa using h.2

theorem mem_sortedAll_of_mem_group {txs : List Transaction} {c : Nat}
    {it : ITx} (h : it ∈ customerGroup txs c) : it ∈ sortedAll txs :=
  (List.mem_filter.mp h).1

theorem self_mem_customerGroup {txs : List Transaction} {it : ITx}
    (h : it ∈ sortedAll txs) : it ∈ customerGroup txs it.tx.customerId := by
  rw [customerGroup, List.mem_filter]
  exact ⟨h, by simp⟩

theorem sorted_groupTimes (txs : List Transaction) (c : Nat) :
    List.Sorted (· ≤ ·) (groupTimes txs c) := by
  have h1 : List.Pairwise lexLe (customerGroup txs c) :=
    (sorted_sortedAll txs).filter _
  rw [groupTimes]
  refine List.pairwise_map.mpr (h1.imp_of_mem ?_)
  intro a b ha hb hR
  have hca := mem_customerGroup_cust ha
  have hcb := mem_customerGroup_cust hb
  unfold lexLe at hR
  omega

theorem length_groupTimes (txs : List Transaction) (c : Nat) :
    (groupTimes txs c).length = (customerGroup txs c).length := by
  rw [groupTimes, List.length_map]

theorem length_customerGroup (txs : List Transaction) (c : Nat) :
    (customerGroup txs c).length =
      txs.countP (fun t => t.customerId == c) := by
  rw [customerGroup, ← List.countP_eq_length_filter]
  have h1 : List.countP (fun it => it.tx.customerId == c) (sortedAll txs) =
      List.countP (fun t => t.customerId == c)
        ((sortedAll txs).map ITx.tx) := by
    rw [List.countP_map]
    rfl
  rw [h1]
  exact (map_tx_sortedAll_perm txs).countP_eq _

theorem mem_suspicious_idx {txs : List Transaction} {i : Nat} :
    i ∈ suspicious_idx txs ↔
      ∃ c, c ∈ customers txs ∧ ∃ p, p ∈ freqPositions (groupTimes txs c) ∧
        ((customerGroup txs c).getD p default).idx = i := by
  rw [suspicious_idx]
  simp only [List.mem_flatMap, List.mem_map]

theorem freqFlag_iff {txs : List Transaction} {it : ITx}
    (h : it ∈ sortedAll txs) :
    freqFlag txs it.idx = true ↔
      coveredTime (groupTimes txs it.tx.customerId) it.tx.ts := by
  rw [freqFlag, decide_eq_true_iff]
  constructor
  · intro hmem
    rcases mem_suspicious_idx.mp hmem with ⟨c, _, p, hp, hidx⟩
    have hsg := sorted_groupTimes txs c
    have hplt : p < (groupTimes txs c).length :=
      freqPositions_lt_length hsg hp
    have hplt2 : p < (customerGroup txs c).length := by
      rwa [length_groupTimes] at hplt
    have hxg : (customerGroup txs c).getD p default ∈ customerGroup txs c := by
      rw [List.getD_eq_getElem _ _ hplt2]
      exact List.getElem_mem hplt2
    have hxit : (customerGroup txs c).getD p default = it :=
      idx_inj (mem_sortedAll_of_mem_group hxg) h hidx
    have hcx : c = it.tx.customerId := by
      rw [← mem_customerGroup_cust hxg, hxit]
    have ht : (groupTimes txs c).getD p 0 = it.tx.ts := by
      rw [List.getD_eq_getElem _ _ hplt]
      simp only [groupTimes, List.getElem_map]
      rw [← List.getD_eq_getElem _ default hplt2, hxit]
    have hcov := (freqPositions_iff_time hsg hplt).mp hp
    rw [ht] at hcov
    rwa [hcx] at hcov
  · intro hcov
    have hg := self_mem_customerGroup h
    rcases List.mem_iff_getElem.mp hg with ⟨p, hplt2, hgp⟩
    have hsg := sorted_groupTimes txs it.tx.customerId
    have hplt : p < (groupTimes txs it.tx.customerId).length := by
      rwa [length_groupTimes]
    have ht : (groupTimes txs it.tx.customerId).getD p 0 = it.tx.ts := by
      rw [List.getD_eq_getElem _ _ hplt]
      simp only [groupTimes, List.getElem_map]
      rw [hgp]
    have hp : p ∈ freqPositions (groupTimes txs it.tx.customerId) := by
      rw [freqPositions_iff_time hsg hplt, ht]
      exact hcov
    apply mem_suspicious_idx.mpr
    refine ⟨it.tx.customerId, ?_, p, hp, ?_⟩
    · rw [customers, List.mem_dedup]
      exact List.mem_map_of_mem _ h
    · rw [List.getD_eq_getElem _ _ hplt2, hgp]

theorem groupTimes_perm_invariant {txs txs2 : List Transaction}
    (hperm : txs.Perm txs2) (c : Nat) :
    groupTimes txs c = groupTimes txs2 c := by
  have e1 : ∀ u : List Transaction,
      (groupTimes u c).Perm
        ((u.filter (fun t => t.customerId == c)).map Transaction.ts) := by
    intro u
    have h1 : groupTimes u c =
        (((sortedAll u).map ITx.tx).filter
          (fun t => t.customerId == c)).map Transaction.ts := by
      rw [groupTimes, customerGroup, List.filter_map, List.map_map]
      rfl
    rw [h1]
    exact ((map_tx_sortedAll_perm u).filter _).map _
  have hp : (groupTimes txs c).Perm (groupTimes txs2 c) :=
    ((e1 txs).trans ((hperm.filter _).map _)).trans (e1 txs2).symm
  exact List.eq_of_perm_of_sorted hp (sorted_groupTimes txs c)
    (sorted_groupTimes txs2 c)

/-! ### Reason-list membership -/

theorem mem_reasonList {f : Bool} {o : ScoredTx} {r : String} :
    r ∈ reasonList f o ↔
      ((high_amount_mask o ∧ r = "Monto extremadamente alto") ∨
       (risky_country_mask o ∧ r = "País de alto riesgo") ∨
       (mismatch_country_mask o ∧ r = "IP y tarjeta en países distintos") ∨
       (night_mask o ∧ r = "Actividad nocturna inusual") ∨
       (f = true ∧ r = "Alta frecuencia en 10min") ∨
       (almost_zero_mask o ∧ r = "Vaciado de cuenta")) := by
  rw [reasonList]
  simp only [List.mem_append, mem_ite_list, List.mem_singleton]
  tauto

theorem freq_mem_reasonList {f : Bool} {o : ScoredTx} :
    "Alta frecuencia en 10min" ∈ reasonList f o ↔ f = true := by
  rw [mem_reasonList]
  have e1 : ("Alta frecuencia en 10min" : String) ≠
      "Monto extremadamente alto" := by decide
  have e2 : ("Alta frecuencia en 10min" : String) ≠
      "País de alto riesgo" := by decide
  have e3 : ("Alta frecuencia en 10min" : String) ≠
      "IP y tarjeta en países distintos" := by decide
  have e4 : ("Alta frecuencia en 10min" : String) ≠
      "Actividad nocturna inusual" := by decide
  have e6 : ("Alta frecuencia en 10min" : String) ≠
      "Vaciado de cuenta" := by decide
  tauto

/-! ### Claim theorems -/

/-- C2: for every transaction of a scoring run, `risk_label` is the pure
total step function of `risk_score`: HIGH if the score is at least 70, else
MEDIUM if at least 40, else LOW if positive, else NONE; in particular score
39 gives LOW, 40 gives MEDIUM, 69 gives MEDIUM and 70 gives HIGH. -/
theorem c2_risk_label :
    (∀ txs : List Transaction, ∀ o ∈ apply_fraud_rules txs,
      o.riskLabel =
        (if 70 ≤ o.riskScore then "HIGH"
         else if 40 ≤ o.riskScore then "MEDIUM"
         else if 0 < o.riskScore then "LOW" else "NONE")) ∧
    label_risk 39 = "LOW" ∧ label_risk 40 = "MEDIUM" ∧
    label_risk 69 = "MEDIUM" ∧ label_risk 70 = "HIGH" := by
  refine ⟨?_, by decide, by decide, by decide, by decide⟩
  intro txs o ho
  rcases List.mem_map.mp ho with ⟨it, hit, rfl⟩
  rw [scoreRow_riskLabel, scoreRow_riskScore]
  rfl

theorem c2_risk_label_witness :
    ((apply_fraud_rules c3Input).headD default).riskLabel = "MEDIUM" ∧
    label_risk 39 = "LOW" :=
  ⟨(c2_risk_label.1 c3Input ((apply_fraud_rules c3Input).headD default)
      (by decide)).trans (by decide),
   c2_risk_label.2.1⟩

/-- C5: for every transaction of a scoring run, the risk score is between 0
and 100 and equals the sum of the weights of the triggered rules clipped at
100 (for a `Nat` score the lower bound 0 is automatic). -/
theorem c5_clip_invariant :
    ∀ txs : List Transaction, ∀ o ∈ apply_fraud_rules txs,
      o.riskScore ≤ 100 ∧
      o.riskScore = min
        ((if high_amount_mask o then 40 else 0) +
         (if risky_country_mask o then 25 else 0) +
         (if mismatch_country_mask o then 20 else 0) +
         (if night_mask o then 15 else 0) +
         (if "Alta frecuencia en 10min" ∈ o.reasons then 30 else 0) +
         (if almost_zero_mask o then 20 else 0)) 100 := by
  intro txs o ho
  rcases List.mem_map.mp ho with ⟨it, hit, rfl⟩
  constructor
  · rw [scoreRow_riskScore]
    exact Nat.min_le_right _ _
  · rw [scoreRow_riskScore, scoreRow_reasons, triggeredWeights]
    simp only [high_amount_mask_scoreRow, risky_country_mask_scoreRow,
      mismatch_country_mask_scoreRow, night_mask_scoreRow,
      almost_zero_mask_scoreRow, freq_mem_reasonList]

theorem c5_clip_invariant_witness :
    ((apply_fraud_rules c3Input).headD default).riskScore ≤ 100 :=
  (c5_clip_invariant c3Input ((apply_fraud_rules c3Input).headD default)
    (by decide)).1

/-- C8: for every transaction of a scoring run, `is_suspicious` holds
exactly when at least one of the six rules (the five per-record rules or the
frequency rule) triggered, and the reasons are exactly the reason texts of
the triggered rules. -/
theorem c8_suspicious_iff_rules :
    ∀ txs : List Transaction, ∀ o ∈ apply_fraud_rules txs,
      (o.isSuspicious = true ↔
        (high_amount_mask o ∨ risky_country_mask o ∨
         mismatch_country_mask o ∨ night_mask o ∨
         freqFlag txs o.idx = true ∨ almost_zero_mask o)) ∧
      (∀ r : String, r ∈ o.reasons ↔
        ((high_amount_mask o ∧ r = "Monto extremadamente alto") ∨
         (risky_country_mask o ∧ r = "País de alto riesgo") ∨
         (mismatch_country_mask o ∧ r = "IP y tarjeta en países distintos") ∨
         (night_mask o ∧ r = "Actividad nocturna inusual") ∨
         (freqFlag txs o.idx = true ∧ r = "Alta frecuencia en 10min") ∨
         (almost_zero_mask o ∧ r = "Vaciado de cuenta"))) := by
  intro txs o ho
  rcases List.mem_map.mp ho with ⟨it, hit, rfl⟩
  constructor
  · rw [scoreRow_isSuspicious, decide_eq_true_iff, anyRule, scoreRow_idx]
    simp only [high_amount_mask_scoreRow, risky_country_mask_scoreRow,
      mismatch_country_mask_scoreRow, night_mask_scoreRow,
      almost_zero_mask_scoreRow]
  · intro r
    rw [scoreRow_reasons, mem_reasonList, scoreRow_idx]
    simp only [high_amount_mask_scoreRow, risky_country_mask_scoreRow,
      mismatch_country_mask_scoreRow, night_mask_scoreRow,
      almost_zero_mask_scoreRow]

theorem c8_suspicious_iff_rules_witness :
    ((apply_fraud_rules c3Input).headD default).isSuspicious = true :=
  ((c8_suspicious_iff_rules c3Input
      ((apply_fraud_rules c3Input).headD default) (by decide)).1).mpr
    (Or.inl (by decide))

/-- C4 counterexample: in the batch `c4Input` every transaction triggers
both the frequency rule and the account-drain rule, and the frequency
reason is present but NOT the last reason of the first returned row (the
drain reason is), contradicting the claim that the frequency reason, when
present, is always last. -/
theorem c4_counterexample :
    "Alta frecuencia en 10min" ∈
      ((apply_fraud_rules c4Input).headD default).reasons ∧
    ((apply_fraud_rules c4Input).headD default).reasons.getLast? =
      some "Vaciado de cuenta" ∧
    some ("Vaciado de cuenta" : String) ≠ some "Alta frecuencia en 10min" := by
  refine ⟨by decide, by decide, by decide⟩

/-- C4 (amended): reasons accumulate in the statement order of the source:
high amount, risky country, IP/card mismatch, night activity, then the
frequency rule, then the account-drain rule; so the frequency reason, when
present, comes after the four per-record rules of lines 114-137 but BEFORE
the account-drain reason, and is last only when the drain rule does not
trigger. -/
theorem c4_reason_order :
    ∀ txs : List Transaction, ∀ o ∈ apply_fraud_rules txs,
      o.reasons =
        (if high_amount_mask o then ["Monto extremadamente alto"] else []) ++
        (if risky_country_mask o then ["País de alto riesgo"] else []) ++
        (if mismatch_country_mask o then ["IP y tarjeta en países distintos"]
         else []) ++
        (if night_mask o then ["Actividad nocturna inusual"] else []) ++
        (if freqFlag txs o.idx then ["Alta frecuencia en 10min"] else []) ++
        (if almost_zero_mask o then ["Vaciado de cuenta"] else []) := by
  intro txs o ho
  rcases List.mem_map.mp ho with ⟨it, hit, rfl⟩
  rw [scoreRow_reasons, reasonList, scoreRow_idx]
  simp only [high_amount_mask_scoreRow, risky_country_mask_scoreRow,
    mismatch_country_mask_scoreRow, night_mask_scoreRow,
    almost_zero_mask_scoreRow]

theorem c4_reason_order_witness :
    ((apply_fraud_rules c4Input).headD default).reasons =
      ["Alta frecuencia en 10min", "Vaciado de cuenta"] :=
  (c4_reason_order c4Input ((apply_fraud_rules c4Input).headD default)
    (by decide)).trans (by decide)

/-- C3 counterexample: on the one-transaction batch `c3Input` (amount 9000,
country NG, all other rules false) the score is exactly 65, but the reasons
are the source's Spanish texts; the English texts quoted by the claim do not
occur, so the claim as stated fails. -/
theorem c3_counterexample :
    (apply_fraud_rules c3Input).map (fun o => (o.riskScore, o.reasons)) =
      [(65, ["Monto extremadamente alto", "País de alto riesgo"])] ∧
    "Extremely high amount" ∉
      ((apply_fraud_rules c3Input).headD default).reasons ∧
    "High-risk country" ∉
      ((apply_fraud_rules c3Input).headD default).reasons := by
  refine ⟨by decide, by decide, by decide⟩

/-- C3 (amended): a transaction whose amount exceeds 8000 and whose country
is in {NG, RU, CN}, with every other rule predicate false (including the
frequency rule), receives risk score exactly 65 = 40 + 25 (the sum, not the
maximum), and its reasons are exactly the code's two reason texts
"Monto extremadamente alto" then "País de alto riesgo" (the source emits
Spanish reason strings, not the English texts of the specification's rule
table), in rule-table order. -/
theorem c3_union_semantics :
    ∀ txs : List Transaction, ∀ o ∈ apply_fraud_rules txs,
      high_amount_mask o → risky_country_mask o → ¬ mismatch_country_mask o →
      ¬ night_mask o → ¬ almost_zero_mask o → freqFlag txs o.idx = false →
      o.riskScore = 65 ∧
        o.reasons = ["Monto extremadamente alto", "País de alto riesgo"] := by
  intro txs o ho h1 h2 h3 h4 h6 hf
  rcases List.mem_map.mp ho with ⟨it, hit, rfl⟩
  rw [scoreRow_idx] at hf
  simp only [high_amount_mask_scoreRow, risky_country_mask_scoreRow,
    mismatch_country_mask_scoreRow, night_mask_scoreRow,
    almost_zero_mask_scoreRow] at h1 h2 h3 h4 h6
  constructor
  · rw [scoreRow_riskScore, triggeredWeights, if_pos h1, if_pos h2,
      if_neg h3, if_neg h4, if_neg h6, hf]
    simp
  · rw [scoreRow_reasons, reasonList, if_pos h1, if_pos h2, if_neg h3,
      if_neg h4, if_neg h6, hf]
    simp

theorem c3_union_semantics_witness :
    ((apply_fraud_rules c3Input).headD default).riskScore = 65 ∧
    ((apply_fraud_rules c3Input).headD default).reasons =
      ["Monto extremadamente alto", "País de alto riesgo"] :=
  c3_union_semantics c3Input ((apply_fraud_rules c3Input).headD default)
    (by decide) (by decide) (by decide) (by decide) (by decide) (by decide)
    (by decide)

/-- C9: `apply_fraud_rules` never mutates its input frame: line 105 copies
the caller's frame into a fresh object and all later statements work on that
object, so after the call every live object of the caller's heap is
unchanged and the returned frame is a different object. -/
theorem c9_no_input_mutation :
    ∀ (heap : List DfObj) (ref i : Nat) (d : DfObj), i < heap.length →
      (apply_fraud_rules_prog heap ref).1.getD i d = heap.getD i d ∧
      (apply_fraud_rules_prog heap ref).2 ≠ i := by
  intro heap ref i d hi
  rw [apply_fraud_rules_prog]
  refine ⟨?_, by omega⟩
  rw [List.getD_eq_getElem?_getD, List.getD_eq_getElem?_getD,
    List.getElem?_set_ne (by omega : heap.length ≠ i),
    List.getElem?_append]
  rw [if_pos hi, List.getD_eq_getElem?_getD]

theorem c9_no_input_mutation_witness :
    (apply_fraud_rules_prog [DfObj.raw c3Input] 0).1.getD 0 (DfObj.raw []) =
      DfObj.raw c3Input ∧
    (apply_fraud_rules_prog [DfObj.raw c3Input] 0).2 ≠ 0 :=
  have h := c9_no_input_mutation [DfObj.raw c3Input] 0 0 (DfObj.raw [])
    (by decide)
  ⟨h.1.trans (by decide), h.2⟩

/-- C10: the returned frame is sorted by (customer_id, timestamp) rather
than in input order (witnessed by a concrete two-customer batch that comes
back reversed), and each returned row carries the two extra derived columns:
the parsed timestamp (equal to the `timestamp` column) and the hour of
day. -/
theorem c10_output_order_and_columns :
    (∀ txs : List Transaction, List.Pairwise
      (fun a b : ScoredTx => a.customerId < b.customerId ∨
        (a.customerId = b.customerId ∧ a.ts ≤ b.ts))
      (apply_fraud_rules txs)) ∧
    ((apply_fraud_rules c10Input).map (fun o => o.txId) = [2, 1] ∧
      c10Input.map Transaction.txId = [1, 2]) ∧
    (∀ txs : List Transaction, ∀ o ∈ apply_fraud_rules txs,
      o.tsDt = o.ts ∧ o.hour = hourOfDay o.ts) := by
  refine ⟨?_, ⟨by decide, by decide⟩, ?_⟩
  · intro txs
    rw [apply_fraud_rules]
    refine List.pairwise_map.mpr ((sorted_sortedAll txs).imp ?_)
    intro a b hab
    simp only [scoreRow_customerId, scoreRow_ts]
    unfold lexLe at hab
    omega
  · intro txs o ho
    rcases List.mem_map.mp ho with ⟨it, hit, rfl⟩
    refine ⟨?_, ?_⟩
    · rw [scoreRow_tsDt, scoreRow_ts]
    · rw [scoreRow_hour, scoreRow_ts]

theorem c10_output_order_and_columns_witness :
    ((apply_fraud_rules c10Input).headD default).tsDt =
      ((apply_fraud_rules c10Input).headD default).ts :=
  (c10_output_order_and_columns.2.2 c10Input
    ((apply_fraud_rules c10Input).headD default) (by decide)).1

/-- C6: before the window scan the transactions are partitioned by customer
and ordered by (customer_id, timestamp) with ties broken by original input
order (a stable sort): the sorted frame is a permutation of the labelled
input, it is pairwise ordered by customer then timestamp, rows of one
customer with equal timestamps keep their input order, and each customer
group is a permutation of that customer's input rows. -/
theorem c6_stable_sort :
    ∀ txs : List Transaction,
      (sortedAll txs).Perm (indexTxs txs) ∧
      List.Pairwise (fun a b : ITx => a.tx.customerId < b.tx.customerId ∨
        (a.tx.customerId = b.tx.customerId ∧ a.tx.ts ≤ b.tx.ts))
        (sortedAll txs) ∧
      List.Pairwise (fun a b : ITx => a.tx.customerId = b.tx.customerId →
        a.tx.ts = b.tx.ts → a.idx < b.idx) (sortedAll txs) ∧
      (∀ c : Nat, (customerGroup txs c).Perm
        ((indexTxs txs).filter (fun it => it.tx.customerId == c))) := by
  intro txs
  refine ⟨perm_sortedAll txs, ?_, ?_, ?_⟩
  · refine (sorted_sortedAll txs).imp ?_
    intro a b hab
    unfold lexLe at hab
    omega
  · have h1 : List.Pairwise (fun a b : ITx => a.idx ≠ b.idx)
        (sortedAll txs) := by
      have h := nodup_idx_sortedAll txs
      rw [List.Nodup, List.pairwise_map] at h
      exact h
    refine ((sorted_sortedAll txs).and h1).imp ?_
    rintro a b ⟨hab, hne⟩ hc ht
    unfold lexLe at hab
    omega
  · intro c
    exact (perm_sortedAll txs).filter _

/-! ### The exact-boundary six-transaction family -/

theorem quiet_masks (c t k i : Nat) :
    ¬ high_amount_mask (initRow ⟨quietTx c t k, i⟩) ∧
    ¬ risky_country_mask (initRow ⟨quietTx c t k, i⟩) ∧
    ¬ mismatch_country_mask (initRow ⟨quietTx c t k, i⟩) ∧
    ¬ night_mask (initRow ⟨quietTx c t k, i⟩) ∧
    ¬ almost_zero_mask (initRow ⟨quietTx c t k, i⟩) := by
  refine ⟨?_, ?_, ?_, ?_, ?_⟩ <;>
    simp [high_amount_mask, risky_country_mask, mismatch_country_mask,
      night_mask, almost_zero_mask, quietTx, risky_countries] <;>
    norm_num

theorem sorted_indexTxs_evenSix (c t : Nat) :
    List.Sorted lexLe (indexTxs (evenSixTxs c t)) := by
  simp only [evenSixTxs, indexTxs, indexFrom]
  refine List.pairwise_iff_getElem.mpr ?_
  intro i j hi hj hij
  simp only [List.length_cons, List.length_nil] at hj
  interval_cases j <;> interval_cases i <;>
    simp [lexLe, quietTx]

theorem sortedAll_evenSix (c t : Nat) :
    sortedAll (evenSixTxs c t) = indexTxs (evenSixTxs c t) := by
  rw [sortedAll]
  exact (sorted_indexTxs_evenSix c t).insertionSort_eq

theorem customerGroup_evenSix (c t : Nat) :
    customerGroup (evenSixTxs c t) c = indexTxs (evenSixTxs c t) := by
  rw [customerGroup, sortedAll_evenSix]
  simp [indexTxs, indexFrom, evenSixTxs, quietTx, List.filter]

theorem groupTimes_evenSix (c t : Nat) :
    groupTimes (evenSixTxs c t) c =
      [t, t + 120, t + 240, t + 360, t + 480, t + 600] := by
  rw [groupTimes, customerGroup_evenSix]
  simp [indexTxs, indexFrom, evenSixTxs, quietTx]

theorem mem_evenSix_cases {c t : Nat} {it : ITx}
    (h : it ∈ sortedAll (evenSixTxs c t)) :
    it.tx.customerId = c ∧ t ≤ it.tx.ts ∧ it.tx.ts ≤ t + 600 ∧
      ∃ k i : Nat, it = ⟨quietTx c t k, i⟩ := by
  rw [sortedAll_evenSix] at h
  simp only [indexTxs, indexFrom, evenSixTxs, List.mem_cons,
    List.not_mem_nil, or_false] at h
  rcases h with rfl | rfl | rfl | rfl | rfl | rfl <;>
    exact ⟨rfl, by simp only [quietTx]; omega, by simp only [quietTx]; omega,
      _, _, rfl⟩

theorem freqFlag_evenSix (c t : Nat) {it : ITx}
    (h : it ∈ sortedAll (evenSixTxs c t)) :
    freqFlag (evenSixTxs c t) it.idx = true := by
  have hck := mem_evenSix_cases h
  rw [freqFlag_iff h, hck.1, groupTimes_evenSix]
  refine ⟨0, 5, by simp, by omega, ?_, ?_, ?_⟩
  · unfold inWin
    simp only [List.getD_cons_succ, List.getD_cons_zero]
    omega
  · simp only [List.getD_cons_zero]
    exact hck.2.1
  · simp only [List.getD_cons_succ, List.getD_cons_zero]
    exact hck.2.2.1

/-- C1: sliding-window boundary behaviour.  (a) For every customer `c` and
base time `t`, scoring the six otherwise-quiet transactions of `c` spaced
exactly two minutes apart (span exactly 10 minutes, retained because
eviction compares with strict greater-than) flags every one of the six with
the frequency reason and the weight-30 contribution (score exactly 30, as
no other rule fires).  (b) For every batch and every customer with fewer
than six transactions in it, no transaction of that customer ever carries
the frequency reason, regardless of time spread. -/
theorem c1_frequency_boundary :
    (∀ c t : Nat, ∀ o ∈ apply_fraud_rules (evenSixTxs c t),
      "Alta frecuencia en 10min" ∈ o.reasons ∧ o.riskScore = 30) ∧
    (∀ (txs : List Transaction) (c : Nat),
      txs.countP (fun tx => tx.customerId == c) < 6 →
      ∀ o ∈ apply_fraud_rules txs, o.customerId = c →
        "Alta frecuencia en 10min" ∉ o.reasons) := by
  constructor
  · intro c t o ho
    rcases List.mem_map.mp ho with ⟨it, hit, rfl⟩
    have hflag := freqFlag_evenSix c t hit
    have hm : ¬ high_amount_mask (initRow it) ∧
        ¬ risky_country_mask (initRow it) ∧
        ¬ mismatch_country_mask (initRow it) ∧
        ¬ night_mask (initRow it) ∧
        ¬ almost_zero_mask (initRow it) := by
      rcases (mem_evenSix_cases hit).2.2.2 with ⟨k, i, rfl⟩
      exact quiet_masks c t k i
    rw [hflag]
    refine ⟨?_, ?_⟩
    · rw [scoreRow_reasons]
      exact freq_mem_reasonList.mpr rfl
    · rw [scoreRow_riskScore, triggeredWeights, if_neg hm.1, if_neg hm.2.1,
        if_neg hm.2.2.1, if_neg hm.2.2.2.1, if_neg hm.2.2.2.2]
      simp
  · intro txs c hcount o ho hoc hmem
    rcases List.mem_map.mp ho with ⟨it, hit, rfl⟩
    rw [scoreRow_reasons, freq_mem_reasonList] at hmem
    rcases (freqFlag_iff hit).mp hmem with ⟨s, e2, hlen, h6, _, _, _⟩
    have hcc : it.tx.customerId = c := by
      rw [← hoc, scoreRow_customerId]
    rw [length_groupTimes, length_customerGroup, hcc] at hlen
    omega

theorem c1_frequency_boundary_witness :
    ("Alta frecuencia en 10min" ∈
        ((apply_fraud_rules (evenSixTxs 1 43200)).headD default).reasons ∧
      ((apply_fraud_rules (evenSixTxs 1 43200)).headD default).riskScore =
        30) ∧
    "Alta frecuencia en 10min" ∉
      ((apply_fraud_rules fiveTxsInput).headD default).reasons :=
  ⟨c1_frequency_boundary.1 1 43200
      ((apply_fraud_rules (evenSixTxs 1 43200)).headD default) (by decide),
   c1_frequency_boundary.2 fiveTxsInput 1 (by decide)
      ((apply_fraud_rules fiveTxsInput).headD default) (by decide)
      (by decide)⟩

/-! ### Reordering invariance -/

theorem resultOf_scoreRow_idx (f : Bool) (t : Transaction) (i j : Nat) :
    resultOf (scoreRow f ⟨t, i⟩) = resultOf (scoreRow f ⟨t, j⟩) := by
  rw [resultOf, resultOf, scoreRow_isSuspicious, scoreRow_isSuspicious,
    scoreRow_reasons, scoreRow_reasons, scoreRow_riskScore,
    scoreRow_riskScore]
  rfl

theorem find?_eq_some_of_unique {α : Type} {p : α → Bool} {l : List α}
    {a : α} (ha : a ∈ l) (hpa : p a = true)
    (huniq : ∀ b ∈ l, p b = true → b = a) : l.find? p = some a := by
  induction l with
  | nil => cases ha
  | cons x l ih =>
    rw [List.find?_cons]
    by_cases hx : p x = true
    · rw [hx]
      rw [huniq x (List.mem_cons_self x l) hx]
    · rw [Bool.eq_false_iff.mpr hx]
      rcases List.mem_cons.mp ha with rfl | haInL
      · exact absurd hpa hx
      · exact ih haInL (fun b hb hpb => huniq b (List.mem_cons_of_mem x hb) hpb)

theorem nodup_txId_sortedAll {txs : List Transaction}
    (h : (txs.map Transaction.txId).Nodup) :
    ((sortedAll txs).map (fun it => it.tx.txId)).Nodup := by
  have h1 : ((sortedAll txs).map (fun it => it.tx.txId)).Perm
      (txs.map Transaction.txId) := by
    have h2 := (map_tx_sortedAll_perm txs).map Transaction.txId
    rwa [List.map_map] at h2
  exact h1.symm.nodup h

/-- C7: scoring is invariant under permutation of the input batch: for any
two batches that are permutations of each other with globally unique tx_ids,
looking up any tx_id in the two scored outputs yields the same suspicion
flag, reasons and risk score.  Only a customer's own (time-sorted) multiset
of transactions feeds the frequency rule, not the global input order. -/
theorem c7_reordering_invariance :
    ∀ txs txs2 : List Transaction, txs.Perm txs2 →
      (txs.map Transaction.txId).Nodup →
      ∀ id : Nat,
        (findByTxId (apply_fraud_rules txs) id).map resultOf =
          (findByTxId (apply_fraud_rules txs2) id).map resultOf := by
  intro txs txs2 hperm hnodup id
  have hnodup2 : (txs2.map Transaction.txId).Nodup :=
    (hperm.map Transaction.txId).nodup hnodup
  have hn1 := nodup_txId_sortedAll hnodup
  have hn2 := nodup_txId_sortedAll hnodup2
  rw [findByTxId, findByTxId, apply_fraud_rules, apply_fraud_rules,
    List.find?_map, List.find?_map, Option.map_map, Option.map_map]
  have hpred : ∀ u : List Transaction,
      ((fun o : ScoredTx => o.txId == id) ∘
        (fun it => scoreRow (freqFlag u it.idx) it)) =
      (fun it : ITx => it.tx.txId == id) := by
    intro u
    funext it
    simp [Function.comp, scoreRow_txId]
  rw [hpred txs, hpred txs2]
  by_cases hex : ∃ x ∈ txs, x.txId = id
  · rcases hex with ⟨x, hx, hxid⟩
    have hx1 : x ∈ (sortedAll txs).map ITx.tx :=
      (map_tx_sortedAll_perm txs).mem_iff.mpr hx
    have hx2 : x ∈ (sortedAll txs2).map ITx.tx :=
      (map_tx_sortedAll_perm txs2).mem_iff.mpr ((hperm.mem_iff).mp hx)
    rcases List.mem_map.mp hx1 with ⟨it1, hit1, hit1x⟩
    rcases List.mem_map.mp hx2 with ⟨it2, hit2, hit2x⟩
    have hfind1 : (sortedAll txs).find? (fun it => it.tx.txId == id) =
        some it1 := by
      refine find?_eq_some_of_unique hit1 (by simp [hit1x, hxid]) ?_
      intro b hb hpb
      refine List.inj_on_of_nodup_map hn1 hb hit1 ?_
      have hbid : b.tx.txId = id := by simpa using hpb
      rw [hbid, hit1x, hxid]
    have hfind2 : (sortedAll txs2).find? (fun it => it.tx.txId == id) =
        some it2 := by
      refine find?_eq_some_of_unique hit2 (by simp [hit2x, hxid]) ?_
      intro b hb hpb
      refine List.inj_on_of_nodup_map hn2 hb hit2 ?_
      have hbid : b.tx.txId = id := by simpa using hpb
      rw [hbid, hit2x, hxid]
    rw [hfind1, hfind2, Option.map_some', Option.map_some']
    have hflag : freqFlag txs it1.idx = freqFlag txs2 it2.idx := by
      have h1 := freqFlag_iff hit1
      have h2 := freqFlag_iff hit2
      rw [hit1x] at h1
      rw [hit2x] at h2
      rw [groupTimes_perm_invariant hperm] at h1
      have hiff : freqFlag txs it1.idx = true ↔
          freqFlag txs2 it2.idx = true := by rw [h1, h2]
      cases hf1 : freqFlag txs it1.idx <;>
        cases hf2 : freqFlag txs2 it2.idx <;> simp_all
    have he1 : it1 = (⟨x, it1.idx⟩ : ITx) := by
      cases it1
      cases hit1x
      rfl
    have he2 : it2 = (⟨x, it2.idx⟩ : ITx) := by
      cases it2
      cases hit2x
      rfl
    simp only [Function.comp_apply]
    rw [hflag, he1, he2]
    exact congrArg some (resultOf_scoreRow_idx _ x it1.idx it2.idx)
  · push_neg at hex
    have hnone1 : (sortedAll txs).find? (fun it => it.tx.txId == id) =
        none := by
      refine List.find?_eq_none.mpr ?_
      intro it hit
      have : it.tx ∈ txs :=
        (map_tx_sortedAll_perm txs).mem_iff.mp (List.mem_map_of_mem _ hit)
      simpa using hex it.tx this
    have hnone2 : (sortedAll txs2).find? (fun it => it.tx.txId == id) =
        none := by
      refine List.find?_eq_none.mpr ?_
      intro it hit
      have h3 : it.tx ∈ txs2 :=
        (map_tx_sortedAll_perm txs2).mem_iff.mp (List.mem_map_of_mem _ hit)
      simpa using hex it.tx (hperm.mem_iff.mpr h3)
    rw [hnone1, hnone2, Option.map_none', Option.map_none']

theorem c7_reordering_invariance_witness :
    (findByTxId (apply_fraud_rules c10Input) 1).map resultOf =
      (findByTxId (apply_fraud_rules c7Input2) 1).map resultOf :=
  c7_reordering_invariance c10Input c7Input2 (by decide) (by decide) 1

end FraudDetection
